import Mathlib

/-!
A verification development for the replay-script usage driver of the qiime2
provenance library (`qiime2/core/archive/provenance_lib/usage_drivers.py`).

The Python module renders a provenance DAG back into an executable Python
script: it templates action invocations, chooses between individual and
collective output binding, tracks imports, wraps comments, and assembles
header, body and footer sections.  The definitions below are a shallow
embedding of that module: Python lists become `List`, Python sets become
`Finset`, the mutable driver object becomes an explicit state record, and
each method becomes a function from state (and arguments) to state or to the
list of rendered lines.
-/

namespace UsageDrivers

/-- A usage variable as seen by the driver: the only operation the driver
uses is `to_interface_name()`, which yields the rendered identifier. -/
structure UsageVariable where
  to_interface_name : String

/-- The live signature of an action: ordered input names, ordered parameter
names, ordered declared output names (`action_f.signature`). -/
structure Signature where
  inputs : List String
  parameters : List String
  outputs : List String

/-- A qiime2 action: plugin id, action id and the live signature returned by
`action.get_action()`. -/
structure Action where
  plugin_id : String
  action_id : String
  signature : Signature

/-- `UsageOutputs` (`variables`): a named tuple, i.e. an ordered association
of output names to recorded usage variables.  `getattr(variables, name)`
is association lookup; `variables._asdict().items()` iterates in order. -/
abbrev UsageOutputs : Type := List (String × UsageVariable)

/-- `UsageInputs` (`input_opts`): an ordered association of input/parameter
names to their (already rendered) argument values. -/
abbrev UsageInputs : Type := List (String × String)

/-- Python `str.strip()`: remove leading and trailing whitespace. -/
def pyStrip (s : String) : String :=
  String.mk (((s.data.dropWhile Char.isWhitespace).reverse.dropWhile
    Char.isWhitespace).reverse)

/-- Modelled from the spec: `ArtifactAPIUsage.INDENT`, the four-space
indentation constant of the parent renderer (the parent class is not among
the repository files). -/
def INDENT : String := "    "

/-- Modelled from the spec: the parent renderer hook `_template_input(k, v)`
(not among the repository files), which emits the argument line for one
entry of `input_opts`: the indented `key=value,` line. -/
def _template_input (k v : String) : String :=
  INDENT ++ k ++ "=" ++ v ++ ","

/-- The inline warning comment prepended to an argument line whose parameter
name was not found in the live signature (`_template_action`). -/
def action_warning : String :=
  INDENT ++
  "# FIXME: The following parameter name was not found in your current\n" ++
  "    # QIIME 2 environment. This may occur when the plugin version you " ++
  "have\n    # installed does not match the version used in the original " ++
  "analysis.\n  # Please see the docs and correct the parameter name " ++
  "before running.\n"

/-- The comment that opens the save block in `_template_action`. -/
def save_comment : String :=
  "# SAVE: comment out the following with \x27# \x27 to skip saving " ++
  "Results to disk"

/-- The per-output interface names built by the loop of `_template_outputs`:
one entry per declared output, in declared order; `getattr` failure
(an output missing from `variables`) yields the placeholder name. -/
def _template_outputs_vars (action : Action) (vars : UsageOutputs) :
    List String :=
  action.signature.outputs.map fun output =>
    match vars.lookup output with
    | some v => v.to_interface_name
    | none => "_"

/-- `_template_outputs`: pad a singleton sequence with a trailing empty
entry, join with a comma-space separator and strip whitespace. -/
def _template_outputs (action : Action) (vars : UsageOutputs) : String :=
  let output_vars := _template_outputs_vars action vars
  let output_vars :=
    if output_vars.length = 1 then output_vars ++ [""] else output_vars
  pyStrip (String.intercalate ", " output_vars)

/-- The argument lines of `_template_action`: one line per `input_opts`
entry, in order, prefixed by the warning comment when the key is absent from
the live signature's combined input and parameter names. -/
def _input_lines (action : Action) (input_opts : UsageInputs) : List String :=
  input_opts.map fun kv =>
    (if kv.1 ∈ action.signature.inputs ++ action.signature.parameters
      then "" else action_warning) ++ _template_input kv.1 kv.2

/-- The extraction lines of `_template_action`'s collective branch: one
`name = action_results.output` line per recorded output variable. -/
def _extraction_lines (vars : UsageOutputs) : List String :=
  vars.map fun kv =>
    kv.2.to_interface_name ++ " = action_results." ++ kv.1

/-- The save statements of `_template_action`: one `name.save('name')` line
per recorded output variable. -/
def _save_lines (vars : UsageOutputs) : List String :=
  vars.map fun kv =>
    kv.2.to_interface_name ++ ".save(\x27" ++ kv.2.to_interface_name ++
    "\x27)"

/-- The lines rendered by `_template_action`: the binding-and-call line, the
argument lines, the closing parenthesis, the extraction lines of the
collective branch, the save block and a trailing blank line. -/
def _template_action_lines (action_collection_size : Nat) (action : Action)
    (input_opts : UsageInputs) (vars : UsageOutputs) : List String :=
  let output_vars :=
    if vars.length > action_collection_size ∨
        action.signature.outputs.length > 5 then
      "action_results"
    else
      _template_outputs action vars
  let lines := [output_vars ++ " = " ++ action.plugin_id ++ "_actions." ++
    action.action_id ++ "("]
  let lines := lines ++ _input_lines action input_opts
  let lines := lines ++ [")"]
  let lines := lines ++
    (if vars.length > action_collection_size ∨
        action.signature.outputs.length > 5 then
      _extraction_lines vars
    else [])
  let lines := lines ++ [save_comment]
  let lines := lines ++ _save_lines vars
  lines ++ [""]

/-- The state of a `ReplayPythonUsage` driver: configuration plus the
accumulated header, recorder (body), footer, import sets and the diagnostic
`init_data_refs` mapping. -/
structure ReplayPythonUsage where
  enable_assertions : Bool
  action_collection_size : Nat
  local_imports : Finset String
  global_imports : Finset String
  header : List String
  recorder : List String
  footer : List String
  init_data_refs : List (String × String)

/-- `_reset_state`: clear all local driver state; clear the global import
set only when `reset_global_imports` is set. -/
def _reset_state (st : ReplayPythonUsage) (reset_global_imports : Bool) :
    ReplayPythonUsage :=
  { st with
    local_imports := ∅
    header := []
    recorder := []
    footer := []
    init_data_refs := []
    global_imports :=
      if reset_global_imports then ∅ else st.global_imports }

/-- `__init__`: store the configuration and reset all state, including the
global imports. -/
def ReplayPythonUsage.init (enable_assertions : Bool)
    (action_collection_size : Nat) : ReplayPythonUsage :=
  _reset_state
    { enable_assertions := enable_assertions
      action_collection_size := action_collection_size
      local_imports := ∅
      global_imports := ∅
      header := []
      recorder := []
      footer := []
      init_data_refs := [] }
    true

/-- The driver constructed with the argument defaults of `__init__`
(`enable_assertions=False`, `action_collection_size=2`). -/
def ReplayPythonUsage.init_default : ReplayPythonUsage :=
  ReplayPythonUsage.init false 2

/-- Modelled from the spec: the parent assembler's body-append hook `_add`
(not among the repository files); all produced lines are appended to the
assembler's body buffer (the recorder). -/
def _add (st : ReplayPythonUsage) (lines : List String) :
    ReplayPythonUsage :=
  { st with recorder := st.recorder ++ lines }

/-- `_template_action` as a state transformer: append the rendered lines to
the recorder. -/
def _template_action (st : ReplayPythonUsage) (action : Action)
    (input_opts : UsageInputs) (vars : UsageOutputs) :
    ReplayPythonUsage :=
  _add st
    (_template_action_lines st.action_collection_size action input_opts
      vars)

/-- The rendered import statement of one import record.  Modelled from the
spec: the parent driver materializes records as plain
`from module import symbol` strings. -/
def import_line (modName symName : String) : String :=
  "from " ++ modName ++ " import " ++ symName

/-- Modelled from the spec: the parent driver's import recorder
`_update_imports` (not among the repository files); recording is idempotent
and adds the obligation to the local and the global import sets. -/
def _update_imports (st : ReplayPythonUsage) (modName symName : String) :
    ReplayPythonUsage :=
  { st with
    local_imports := insert (import_line modName symName) st.local_imports
    global_imports := insert (import_line modName symName) st.global_imports }

/-- Record a whole sequence of import obligations in order. -/
def record_imports (st : ReplayPythonUsage) (recs : List (String × String)) :
    ReplayPythonUsage :=
  recs.foldl (fun s r => _update_imports s r.1 r.2) st

/-- `sorted(self.local_imports)` as used by `render`. -/
def sorted_imports (st : ReplayPythonUsage) : List String :=
  Finset.sort (fun a b => a ≤ b) st.local_imports

/-- `render`: join header, sorted local imports, recorder and footer with
newlines, with blank separators after a non-empty header and import block
and before a non-empty footer; note the reassignments of `self.header` and
`self.footer` persist on the driver.  When `flush` is set the local state is
cleared afterwards. -/
def render (st : ReplayPythonUsage) (flush : Bool) :
    String × ReplayPythonUsage :=
  let sorted_imps := sorted_imports st
  let st := if st.header ≠ [] then
    { st with header := st.header ++ [""] } else st
  let st := if st.footer ≠ [] then
    { st with footer := [""] ++ st.footer } else st
  let sorted_imps :=
    if sorted_imps ≠ [] then sorted_imps ++ [""] else sorted_imps
  let rendered := String.intercalate "\n"
    (st.header ++ sorted_imps ++ st.recorder ++ st.footer)
  let st := if flush then _reset_state st false else st
  (rendered, st)

/-- Split a character list into its maximal whitespace-free runs. -/
def wordChunks (acc : List Char) : List Char → List (List Char)
  | [] => if acc = [] then [] else [acc.reverse]
  | c :: cs =>
    if c.isWhitespace then
      if acc = [] then wordChunks [] cs else acc.reverse :: wordChunks [] cs
    else wordChunks (c :: acc) cs

/-- The words of a text, split on whitespace: the chunks Python's
`textwrap` wraps for a single-spaced text. -/
def pyWords (text : String) : List String :=
  (wordChunks [] text.data).map String.mk

/-- Modelled from the spec: the greedy fill loop of Python's stdlib
`textwrap.wrap` with `break_long_words=False` (the stdlib is not among the
repository files): extend the current line with the next word while the
result stays within the width, otherwise emit the line and start a fresh
indented one; an oversized word is placed alone on its line, unbroken. -/
def textwrap_fill_go (width : Nat) (indent : String) (cur : String) :
    List String → List String
  | [] => [cur]
  | w :: ws =>
    if cur.length + 1 + w.length ≤ width then
      textwrap_fill_go width indent (cur ++ " " ++ w) ws
    else
      cur :: textwrap_fill_go width indent (indent ++ w) ws

/-- Modelled from the spec: Python's stdlib `textwrap.wrap(text, width,
break_long_words=False, initial_indent=indent, subsequent_indent=indent)`
for single-spaced text: greedy fill of whitespace-separated words into
indented lines of at most `width` characters, never splitting a word. -/
def textwrap_wrap (text : String) (width : Nat) (indent : String) :
    List String :=
  match pyWords text with
  | [] => []
  | w :: ws => textwrap_fill_go width indent (indent ++ w) ws

/-- `LINE_LEN` of `comment`. -/
def LINE_LEN : Nat := 79

/-- The lines emitted by `comment`: the wrapped comment block followed by
one blank line. -/
def comment_lines (line : String) : List String :=
  textwrap_wrap line LINE_LEN "# " ++ [""]

/-- `comment` as a state transformer. -/
def comment (st : ReplayPythonUsage) (line : String) : ReplayPythonUsage :=
  _add st (comment_lines line)

/-- The fixed explanatory line of `build_footer`. -/
def footer_note : String :=
  "# The following QIIME 2 Results were parsed to produce this script:"

/-- The identifier lines of `build_footer`: two identifiers per line,
tab-separated, the odd remainder alone (the `range(0, u_len, 2)` loop). -/
def footer_uuid_lines : List String → List String
  | [] => []
  | [u] => ["# " ++ u]
  | u1 :: u2 :: rest =>
    ("# " ++ u1 ++ " \t " ++ u2) :: footer_uuid_lines rest

/-- `build_footer`: boundary, explanatory line, the sorted identifiers two
per line, boundary, blank line.  `dag._parsed_artifact_uuids` is the set of
parsed source-artifact identifiers, passed here as a list of its
elements. -/
def build_footer (parsed_artifact_uuids : List String) (boundary : String) :
    List String :=
  let uuids := parsed_artifact_uuids.mergeSort (fun a b => decide (a ≤ b))
  [boundary, footer_note] ++ footer_uuid_lines uuids ++ [boundary, ""]

/-! ## Example inputs used by witnesses and counterexamples -/

/-- An action with four declared outputs. -/
def exActionBig : Action :=
  ⟨"plug", "act", ⟨["i1"], ["p1"], ["o1", "o2", "o3", "o4"]⟩⟩

/-- Three recorded output variables of `exActionBig`. -/
def exVarsBig : UsageOutputs :=
  [("o1", ⟨"v1"⟩), ("o2", ⟨"v2"⟩), ("o3", ⟨"v3"⟩)]

/-- An action with a single declared output. -/
def exActionOne : Action := ⟨"plug", "act", ⟨["i1"], ["p1"], ["only_out"]⟩⟩

/-- The recorded variable for the single output of `exActionOne`. -/
def exVarsOne : UsageOutputs := [("only_out", ⟨"foo"⟩)]

/-- A driver state with a non-empty header. -/
def exHeaderState : ReplayPythonUsage :=
  { ReplayPythonUsage.init_default with header := ["# hdr"] }

/-! ## Theorems -/

/-- C1: if the number of known (provenance-recorded) output variables
strictly exceeds the collection threshold, or the declared output count
strictly exceeds 5, `_template_action` binds all outputs to the single
collective handle `action_results` and emits one extraction line per
recorded output; otherwise it binds outputs individually via the
output-binding sequence and emits no extraction lines.  The threshold
defaults to 2. -/
theorem c1_output_style_decision (acs : Nat) (a : Action) (io : UsageInputs)
    (vs : UsageOutputs) :
    ((vs.length > acs ∨ a.signature.outputs.length > 5) →
      _template_action_lines acs a io vs =
        ["action_results = " ++ a.plugin_id ++ "_actions." ++ a.action_id ++
            "("] ++
          _input_lines a io ++ [")"] ++ _extraction_lines vs ++
          [save_comment] ++ _save_lines vs ++ [""]
      ∧ (_extraction_lines vs).length = vs.length)
    ∧ (¬(vs.length > acs ∨ a.signature.outputs.length > 5) →
      _template_action_lines acs a io vs =
        [_template_outputs a vs ++ " = " ++ a.plugin_id ++ "_actions." ++
            a.action_id ++ "("] ++
          _input_lines a io ++ [")"] ++
          [save_comment] ++ _save_lines vs ++ [""])
    ∧ ReplayPythonUsage.init_default.action_collection_size = 2 := by
  refine ⟨fun h => ⟨?_, ?_⟩, fun h => ?_, rfl⟩
  · simp only [_template_action_lines, if_pos h]
    simp
  · simp [_extraction_lines]
  · simp only [_template_action_lines, if_neg h]
    simp

/-- Witness for C1 at a concrete collection-style input: three recorded
outputs exceed the default threshold 2. -/
theorem c1_output_style_decision_witness :
    _template_action_lines 2 exActionBig [] exVarsBig =
      ["action_results = " ++ exActionBig.plugin_id ++ "_actions." ++
          exActionBig.action_id ++ "("] ++
        _input_lines exActionBig [] ++ [")"] ++ _extraction_lines exVarsBig ++
        [save_comment] ++ _save_lines exVarsBig ++ [""]
    ∧ (_extraction_lines exVarsBig).length = exVarsBig.length :=
  (c1_output_style_decision 2 exActionBig [] exVarsBig).1 (by decide)

/-- C9: the output-binding sequence has one entry per declared output, in
the action declared output order, and a declared output absent from the
recorded outputs is bound to the placeholder name rather than failing. -/
theorem c9_output_binding_order (a : Action) (vs : UsageOutputs) :
    (_template_outputs_vars a vs).length = a.signature.outputs.length
    ∧ ∀ i : Nat, (_template_outputs_vars a vs)[i]? =
        (a.signature.outputs[i]?).map fun output =>
          match vs.lookup output with
          | some v => v.to_interface_name
          | none => "_" := by
  constructor
  · simp [_template_outputs_vars]
  · intro i
    simp [_template_outputs_vars, List.getElem?_map]

/-- C10: in the collective-handle style the extraction lines and the save
statements are emitted exactly once per output recorded in the OutputSet,
not per output declared in the live signature. -/
theorem c10_collective_extraction_and_save (acs : Nat) (a : Action)
    (io : UsageInputs) (vs : UsageOutputs)
    (h : vs.length > acs ∨ a.signature.outputs.length > 5) :
    ∃ pre, _template_action_lines acs a io vs =
        pre ++ _extraction_lines vs ++ [save_comment] ++ _save_lines vs ++
          [""]
      ∧ _extraction_lines vs = vs.map (fun kv =>
          kv.2.to_interface_name ++ " = action_results." ++ kv.1)
      ∧ _save_lines vs = vs.map (fun kv =>
          kv.2.to_interface_name ++ ".save(\x27" ++ kv.2.to_interface_name ++
          "\x27)")
      ∧ (_extraction_lines vs).length = vs.length
      ∧ (_save_lines vs).length = vs.length := by
  refine ⟨["action_results = " ++ a.plugin_id ++ "_actions." ++ a.action_id ++
      "("] ++ _input_lines a io ++ [")"], ?_, rfl, rfl, ?_, ?_⟩
  · simp only [_template_action_lines, if_pos h]
    simp
  · simp [_extraction_lines]
  · simp [_save_lines]

/-- Witness for C10 at a concrete input whose signature declares four
outputs while only three are recorded. -/
theorem c10_collective_extraction_and_save_witness :
    ∃ pre, _template_action_lines 2 exActionBig [] exVarsBig =
        pre ++ _extraction_lines exVarsBig ++ [save_comment] ++
          _save_lines exVarsBig ++ [""]
      ∧ _extraction_lines exVarsBig = exVarsBig.map (fun kv =>
          kv.2.to_interface_name ++ " = action_results." ++ kv.1)
      ∧ _save_lines exVarsBig = exVarsBig.map (fun kv =>
          kv.2.to_interface_name ++ ".save(\x27" ++ kv.2.to_interface_name ++
          "\x27)")
      ∧ (_extraction_lines exVarsBig).length = exVarsBig.length
      ∧ (_save_lines exVarsBig).length = exVarsBig.length :=
  c10_collective_extraction_and_save 2 exActionBig [] exVarsBig (by decide)

/-- C4: an `input_opts` key absent from the live signature combined
input and parameter names gets the warning comment prepended to its own
argument line, and all remaining lines (later argument lines, the closing
call line, the save block, the blank line) are still emitted; templating an
action always appends its full line list to the recorder. -/
theorem c4_signature_mismatch_is_nonfatal (acs : Nat) (a : Action)
    (io : UsageInputs) (vs : UsageOutputs) :
    (∃ bind extr,
      _template_action_lines acs a io vs =
        [bind] ++ (io.map fun kv =>
          (if kv.1 ∈ a.signature.inputs ++ a.signature.parameters
            then "" else action_warning) ++ _template_input kv.1 kv.2) ++
        [")"] ++ extr ++ [save_comment] ++ _save_lines vs ++ [""])
    ∧ (∀ k v, (k, v) ∈ io →
        k ∉ a.signature.inputs ++ a.signature.parameters →
        (action_warning ++ _template_input k v) ∈ _input_lines a io)
    ∧ (∀ st : ReplayPythonUsage, (_template_action st a io vs).recorder =
        st.recorder ++
          _template_action_lines st.action_collection_size a io vs) := by
  refine ⟨⟨(if vs.length > acs ∨ a.signature.outputs.length > 5 then
      "action_results" else _template_outputs a vs) ++ " = " ++
      a.plugin_id ++ "_actions." ++ a.action_id ++ "(",
    (if vs.length > acs ∨ a.signature.outputs.length > 5 then
      _extraction_lines vs else []), ?_⟩, ?_, fun st => rfl⟩
  · simp only [_template_action_lines, _input_lines]
  · intro k v hkv hc
    rw [List.mem_append] at hc
    push_neg at hc
    have hmem := List.mem_map_of_mem (fun kv : String × String =>
      (if kv.1 ∈ a.signature.inputs ++ a.signature.parameters
        then "" else action_warning) ++ _template_input kv.1 kv.2) hkv
    simpa [_input_lines, hc.1, hc.2] using hmem

/-- Witness for C4 at a concrete input with one mismatched parameter
name. -/
theorem c4_signature_mismatch_is_nonfatal_witness :
    (action_warning ++ _template_input "bogus" "1") ∈
      _input_lines exActionBig [("i1", "thing"), ("bogus", "1")] :=
  (c4_signature_mismatch_is_nonfatal 2 exActionBig
    [("i1", "thing"), ("bogus", "1")] exVarsBig).2.1 "bogus" "1"
    (by simp) (by decide)

/-- C3 (amended): `render` with `flush=False` leaves the recorder, the
local and global import sets, the diagnostic mapping and the configuration
unchanged, but it does mutate the accumulated header and footer: a
non-empty header gains a trailing blank line and a non-empty footer gains a
leading blank line.  Only for an empty header and footer is the state left
fully unchanged. -/
theorem c3_render_no_flush_state (st : ReplayPythonUsage) :
    (render st false).2.recorder = st.recorder
    ∧ (render st false).2.local_imports = st.local_imports
    ∧ (render st false).2.global_imports = st.global_imports
    ∧ (render st false).2.init_data_refs = st.init_data_refs
    ∧ (render st false).2.enable_assertions = st.enable_assertions
    ∧ (render st false).2.action_collection_size = st.action_collection_size
    ∧ (render st false).2.header =
        (if st.header = [] then st.header else st.header ++ [""])
    ∧ (render st false).2.footer =
        (if st.footer = [] then st.footer else [""] ++ st.footer) := by
  simp only [render]
  split_ifs <;> simp_all

/-- C3 is false as stated: rendering without flushing a state with a
non-empty header changes the state (the header gains a blank line). -/
theorem c3_counterexample : (render exHeaderState false).2 ≠ exHeaderState := by
  intro h
  have hh : (render exHeaderState false).2.header = exHeaderState.header :=
    congrArg ReplayPythonUsage.header h
  have hr : (render exHeaderState false).2.header = ["# hdr", ""] := by
    simp [render, exHeaderState, ReplayPythonUsage.init_default,
      ReplayPythonUsage.init, _reset_state]
  rw [hr] at hh
  simp [exHeaderState, ReplayPythonUsage.init_default,
    ReplayPythonUsage.init, _reset_state] at hh

/-- C5: `render(flush=True)` clears the header, the recorder, the footer,
the local imports and the diagnostic mapping while preserving the set of
global imports (only an explicit full reset clears it), and rendering
again immediately afterwards yields the empty document. -/
theorem c5_render_flush_clears (st : ReplayPythonUsage) :
    (render st true).2.header = []
    ∧ (render st true).2.recorder = []
    ∧ (render st true).2.footer = []
    ∧ (render st true).2.local_imports = ∅
    ∧ (render st true).2.init_data_refs = []
    ∧ (render st true).2.global_imports = st.global_imports
    ∧ (_reset_state st true).global_imports = ∅
    ∧ (render ((render st true).2) false).1 = "" := by
  have hflush : (render st true).2 =
      { st with
        local_imports := ∅
        header := []
        recorder := []
        footer := []
        init_data_refs := [] } := by
    simp only [render]
    split_ifs <;> rfl
  rw [hflush]
  refine ⟨rfl, rfl, rfl, rfl, rfl, rfl, rfl, ?_⟩
  simp [render, sorted_imports, String.intercalate]

/-- The number of identifier lines is the identifier count rounded up to
pairs. -/
theorem footer_uuid_lines_length :
    ∀ l : List String, (footer_uuid_lines l).length = (l.length + 1) / 2
  | [] => by simp [footer_uuid_lines]
  | [u] => by simp [footer_uuid_lines]
  | u1 :: u2 :: rest => by
    have ih := footer_uuid_lines_length rest
    simp only [footer_uuid_lines, List.length_cons, ih]
    omega

/-- Each identifier line carries the two identifiers at its pair of indices,
except a final odd identifier, which stands alone. -/
theorem footer_uuid_lines_getD :
    ∀ (l : List String) (i : Nat), i < (footer_uuid_lines l).length →
      (footer_uuid_lines l).getD i "" =
        if 2 * i + 1 < l.length then
          "# " ++ l.getD (2 * i) "" ++ " \t " ++ l.getD (2 * i + 1) ""
        else "# " ++ l.getD (2 * i) ""
  | [], i, hi => by simp [footer_uuid_lines] at hi
  | [u], i, hi => by
    have hi0 : i = 0 := by
      have h1 := hi
      simp [footer_uuid_lines] at h1
      omega
    subst hi0
    simp [footer_uuid_lines]
  | u1 :: u2 :: rest, 0, hi => by
    have hc : 2 * 0 + 1 < (u1 :: u2 :: rest).length := by
      simp only [List.length_cons]
      omega
    rw [if_pos hc]
    simp [footer_uuid_lines]
  | u1 :: u2 :: rest, i + 1, hi => by
    have hi2 : i < (footer_uuid_lines rest).length := by
      have h1 := hi
      simpa [footer_uuid_lines] using h1
    have ih := footer_uuid_lines_getD rest i hi2
    have e1 : 2 * (i + 1) = 2 * i + 1 + 1 := by ring
    have e2 : 2 * (i + 1) + 1 = 2 * i + 1 + 1 + 1 := by ring
    simp only [footer_uuid_lines, List.getD_cons_succ, List.length_cons, e1,
      e2, ih]
    split_ifs <;> first | rfl | omega

/-- C7: the footer consists of the two boundary lines enclosing the
explanatory line and exactly `⌈N/2⌉` identifier lines; each line carries the
two next identifiers except a final odd identifier alone; the identifiers
appear in ascending sorted order. -/
theorem c7_footer_layout (uuids : List String) (boundary : String) :
    build_footer uuids boundary =
      [boundary, footer_note] ++
        footer_uuid_lines (uuids.mergeSort (fun a b => decide (a ≤ b))) ++
        [boundary, ""]
    ∧ (footer_uuid_lines
        (uuids.mergeSort (fun a b => decide (a ≤ b)))).length =
      (uuids.length + 1) / 2
    ∧ (uuids.mergeSort (fun a b => decide (a ≤ b))).Sorted (· ≤ ·)
    ∧ (uuids.mergeSort (fun a b => decide (a ≤ b))).Perm uuids
    ∧ ∀ i : Nat,
        i < (footer_uuid_lines
          (uuids.mergeSort (fun a b => decide (a ≤ b)))).length →
        (footer_uuid_lines
            (uuids.mergeSort (fun a b => decide (a ≤ b)))).getD i "" =
          if 2 * i + 1 < uuids.length then
            "# " ++
              (uuids.mergeSort (fun a b => decide (a ≤ b))).getD (2 * i) "" ++
              " \t " ++
              (uuids.mergeSort (fun a b => decide (a ≤ b))).getD (2 * i + 1)
                ""
          else
            "# " ++
              (uuids.mergeSort (fun a b => decide (a ≤ b))).getD (2 * i)
                "" := by
  refine ⟨rfl, ?_, ?_, List.mergeSort_perm uuids _, ?_⟩
  · rw [footer_uuid_lines_length, List.length_mergeSort]
  · have htrans : ∀ a b c : String, decide (a ≤ b) = true →
        decide (b ≤ c) = true → decide (a ≤ c) = true := fun a b c h1 h2 =>
      decide_eq_true (le_trans (of_decide_eq_true h1) (of_decide_eq_true h2))
    have htotal : ∀ a b : String,
        (decide (a ≤ b) || decide (b ≤ a)) = true := by
      intro a b
      rcases le_total a b with h | h <;> simp [h]
    exact (List.sorted_mergeSort htrans htotal uuids).imp
      fun h => of_decide_eq_true h
  · intro i hi
    rw [footer_uuid_lines_getD _ i hi, List.length_mergeSort]

/-- Witness for C7 at three concrete identifiers: two identifier lines, the
odd one alone, in sorted order. -/
theorem c7_footer_layout_witness :
    (footer_uuid_lines
      ((["b", "a", "c"] : List String).mergeSort
        (fun a b => decide (a ≤ b)))).length =
      ((["b", "a", "c"] : List String).length + 1) / 2 :=
  (c7_footer_layout ["b", "a", "c"] "# ---").2.1

/-- Membership in the local import set accumulated by a record sequence. -/
theorem mem_record_imports (recs : List (String × String))
    (st : ReplayPythonUsage) (x : String) :
    x ∈ (record_imports st recs).local_imports ↔
      x ∈ st.local_imports ∨ ∃ r ∈ recs, x = import_line r.1 r.2 := by
  induction recs generalizing st with
  | nil => simp [record_imports]
  | cons r rs ih =>
    rw [record_imports, List.foldl_cons]
    have := ih (_update_imports st r.1 r.2)
    rw [record_imports] at this
    rw [this]
    simp only [_update_imports, Finset.mem_insert, List.mem_cons]
    constructor
    · rintro (⟨h | h⟩ | ⟨p, hp, hx⟩)
      · exact Or.inr ⟨r, Or.inl rfl, h⟩
      · exact Or.inl h
      · exact Or.inr ⟨p, Or.inr hp, hx⟩
    · rintro (h | ⟨p, hp | hp, hx⟩)
      · exact Or.inl (Or.inr h)
      · exact Or.inl (Or.inl (by rw [hx, hp]))
      · exact Or.inr ⟨p, hp, hx⟩

/-- C8: for any sequence of import records, duplicates and order included,
the rendered import block lists each distinct recorded import exactly once,
in lexically sorted order. -/
theorem c8_imports_dedup_sorted (recs : List (String × String))
    (st0 : ReplayPythonUsage) (h : st0.local_imports = ∅) :
    (sorted_imports (record_imports st0 recs)).Sorted (fun a b => a ≤ b)
    ∧ (sorted_imports (record_imports st0 recs)).Nodup
    ∧ ∀ x : String, x ∈ sorted_imports (record_imports st0 recs) ↔
        ∃ r ∈ recs, x = import_line r.1 r.2 := by
  refine ⟨Finset.sort_sorted _ _, Finset.sort_nodup _ _, fun x => ?_⟩
  rw [sorted_imports, Finset.mem_sort, mem_record_imports, h]
  simp

/-- Witness for C8: a duplicated record sequence yields the import line
exactly once. -/
theorem c8_imports_dedup_sorted_witness :
    ("from qiime2 import Artifact") ∈
      sorted_imports (record_imports ReplayPythonUsage.init_default
        [("qiime2", "Artifact"), ("qiime2", "Artifact"),
          ("qiime2", "Metadata")]) := by
  have h := (c8_imports_dedup_sorted
    [("qiime2", "Artifact"), ("qiime2", "Artifact"), ("qiime2", "Metadata")]
    ReplayPythonUsage.init_default rfl).2.2 "from qiime2 import Artifact"
  exact h.mpr ⟨("qiime2", "Artifact"), by simp, by decide⟩

/-- Stripping whitespace from a string that ends in a comma-space and whose
body has no leading whitespace keeps the comma and drops the space. -/
theorem pyStrip_append_comma_space (e : String)
    (h : e.data.dropWhile Char.isWhitespace = e.data) :
    pyStrip (e ++ ", ") = e ++ "," := by
  apply String.ext
  have hd : (e ++ ", ").data = e.data ++ [',', ' '] := by
    rw [String.data_append]
  have hd2 : (e ++ ",").data = e.data ++ [','] := by
    rw [String.data_append]
  have hdrop : (e.data ++ [',', ' ']).dropWhile Char.isWhitespace =
      e.data ++ [',', ' '] := by
    rw [List.dropWhile_append, h]
    by_cases he : e.data = []
    · rw [he]
      decide
    · have hne : e.data.isEmpty = false := by simpa [List.isEmpty_iff] using he
      rw [hne]
      rfl
  show (((e ++ ", ").data.dropWhile Char.isWhitespace).reverse.dropWhile
      Char.isWhitespace).reverse = (e ++ ",").data
  rw [hd, hd2, hdrop]
  have hc1 : (' ').isWhitespace = true := rfl
  have hc2 : (',').isWhitespace = false := rfl
  simp [List.reverse_append, List.dropWhile_cons, hc1, hc2]

/-- C2 (amended): for an action with exactly one declared output, the
output-binding sequence built by `_template_outputs` has exactly two
entries, the output interface name (or the placeholder) and the empty
string; the returned string is that single name followed by a trailing
comma (the whitespace strip removes the separator space but keeps the
comma, which the generated tuple-unpacking needs). -/
theorem c2_single_output_trailing_comma (a : Action) (vs : UsageOutputs)
    (o e : String) (ho : a.signature.outputs = [o])
    (he : (match vs.lookup o with
           | some v => v.to_interface_name
           | none => "_") = e)
    (hws : e.data.dropWhile Char.isWhitespace = e.data) :
    (if (_template_outputs_vars a vs).length = 1 then
        _template_outputs_vars a vs ++ [""]
      else _template_outputs_vars a vs) = [e, ""]
    ∧ _template_outputs a vs = e ++ "," := by
  have hv : _template_outputs_vars a vs = [e] := by
    simp [_template_outputs_vars, ho, he]
  constructor
  · simp [hv]
  · show pyStrip (String.intercalate ", "
      (if (_template_outputs_vars a vs).length = 1 then
        _template_outputs_vars a vs ++ [""]
      else _template_outputs_vars a vs)) = e ++ ","
    have hj : String.intercalate ", " [e, ""] = e ++ ", " := by
      simp [String.intercalate, String.intercalate.go]
    rw [hv]
    have hlen : ([e] : List String).length = 1 := rfl
    rw [if_pos hlen]
    have happ : ([e] ++ [""] : List String) = [e, ""] := rfl
    rw [happ, hj]
    exact pyStrip_append_comma_space e hws

/-- Witness for C2 at a concrete single-output action. -/
theorem c2_single_output_trailing_comma_witness :
    (if (_template_outputs_vars exActionOne exVarsOne).length = 1 then
        _template_outputs_vars exActionOne exVarsOne ++ [""]
      else _template_outputs_vars exActionOne exVarsOne) = ["foo", ""]
    ∧ _template_outputs exActionOne exVarsOne = "foo" ++ "," :=
  c2_single_output_trailing_comma exActionOne exVarsOne "only_out" "foo"
    rfl (by decide) (by decide)

/-- C2 is false as stated: the string returned for a single-output action
keeps a trailing comma; it is not the bare name. -/
theorem c2_counterexample :
    _template_outputs exActionOne exVarsOne ≠ "foo"
    ∧ _template_outputs exActionOne exVarsOne = "foo," := by
  constructor <;> decide

/-- Appending one more piece to a joined list appends the separator and the
piece. -/
theorem intercalate_go_append (s : String) :
    ∀ (l : List String) (acc w : String),
      String.intercalate.go acc s (l ++ [w]) =
        String.intercalate.go acc s l ++ s ++ w
  | [], acc, w => rfl
  | a :: as, acc, w => by
    rw [List.cons_append]
    show String.intercalate.go (acc ++ s ++ a) s (as ++ [w]) = _
    rw [intercalate_go_append s as (acc ++ s ++ a) w]
    rfl

/-- `intercalate` over a non-empty list with one more word appended. -/
theorem intercalate_append_word (s w : String) (g : List String)
    (hg : g ≠ []) :
    String.intercalate s (g ++ [w]) = String.intercalate s g ++ s ++ w := by
  cases g with
  | nil => exact absurd rfl hg
  | cons a as =>
    show String.intercalate.go a s (as ++ [w]) =
      String.intercalate.go a s as ++ s ++ w
    exact intercalate_go_append s as a w

/-- Every line the greedy fill emits is the indent followed by a non-empty
contiguous run of the input words joined by single spaces: no word is ever
split across lines. -/
theorem fillGo_infix (width : Nat) (indent : String) :
    ∀ (ws g : List String), g ≠ [] →
      ∀ l ∈ textwrap_fill_go width indent
          (indent ++ String.intercalate " " g) ws,
        ∃ g2, g2 ≠ [] ∧ g2 <:+: g ++ ws ∧
          l = indent ++ String.intercalate " " g2
  | [], g, hg, l, hl => by
    have hcur : l = indent ++ String.intercalate " " g := by
      simpa [textwrap_fill_go] using hl
    exact ⟨g, hg, by simp, hcur⟩
  | w :: ws, g, hg, l, hl => by
    rw [textwrap_fill_go] at hl
    by_cases hc :
        (indent ++ String.intercalate " " g).length + 1 + w.length ≤ width
    · rw [if_pos hc] at hl
      have hcur : indent ++ String.intercalate " " g ++ " " ++ w =
          indent ++ String.intercalate " " (g ++ [w]) := by
        rw [intercalate_append_word " " w g hg, String.append_assoc,
          String.append_assoc, String.append_assoc]
      rw [hcur] at hl
      obtain ⟨g2, hne, hinf, hl2⟩ :=
        fillGo_infix width indent ws (g ++ [w]) (by simp) l hl
      refine ⟨g2, hne, ?_, hl2⟩
      rw [List.append_assoc, List.singleton_append] at hinf
      exact hinf
    · rw [if_neg hc] at hl
      rcases List.mem_cons.mp hl with h | h
      · exact ⟨g, hg, (List.prefix_append g (w :: ws)).isInfix, h⟩
      · have h2 : l ∈ textwrap_fill_go width indent
            (indent ++ String.intercalate " " [w]) ws := h
        obtain ⟨g2, hne, hinf, hl2⟩ :=
          fillGo_infix width indent ws [w] (by simp) l h2
        refine ⟨g2, hne, ?_, hl2⟩
        rw [List.singleton_append] at hinf
        exact hinf.trans (List.suffix_append g (w :: ws)).isInfix

/-- Every line the greedy fill emits fits in the width, except a line that
is the indent followed by one single oversized word. -/
theorem fillGo_length (width : Nat) (indent : String) (allw : List String) :
    ∀ (ws : List String) (cur : String),
      (cur.length ≤ width ∨ ∃ w ∈ allw, cur = indent ++ w) →
      (∀ x ∈ ws, x ∈ allw) →
      ∀ l ∈ textwrap_fill_go width indent cur ws,
        l.length ≤ width ∨ ∃ w ∈ allw, l = indent ++ w
  | [], cur, hcur, _hws, l, hl => by
    have h : l = cur := by simpa [textwrap_fill_go] using hl
    rw [h]
    exact hcur
  | w :: ws, cur, hcur, hws, l, hl => by
    rw [textwrap_fill_go] at hl
    by_cases hc : cur.length + 1 + w.length ≤ width
    · rw [if_pos hc] at hl
      refine fillGo_length width indent allw ws (cur ++ " " ++ w) ?_ ?_ l hl
      · left
        have hone : (" " : String).length = 1 := rfl
        have hlen : (cur ++ " " ++ w).length = cur.length + 1 + w.length := by
          rw [String.length_append, String.length_append, hone]
        omega
      · exact fun x hx => hws x (List.mem_cons_of_mem _ hx)
    · rw [if_neg hc] at hl
      rcases List.mem_cons.mp hl with h | h
      · rw [h]
        exact hcur
      · refine fillGo_length width indent allw ws (indent ++ w) ?_ ?_ l h
        · exact Or.inr ⟨w, hws w (List.mem_cons_self _ _), rfl⟩
        · exact fun x hx => hws x (List.mem_cons_of_mem _ hx)

/-- C6 (amended): every wrapped comment line is the comment prefix followed
by a run of intact input words (never a split word), each line fits within
the 79-character budget unless it consists of one single word that alone
overflows it (long words are not broken), and the block is followed by
exactly one blank line. -/
theorem c6_comment_wrapping (text : String) :
    (∀ l ∈ textwrap_wrap text LINE_LEN "# ",
      (∃ g, g ≠ [] ∧ g <:+: pyWords text ∧
        l = "# " ++ String.intercalate " " g)
      ∧ (l.length ≤ LINE_LEN ∨ ∃ w ∈ pyWords text, l = "# " ++ w))
    ∧ comment_lines text = textwrap_wrap text LINE_LEN "# " ++ [""]
    ∧ ∀ l ∈ textwrap_wrap text LINE_LEN "# ", l ≠ "" := by
  have hmain : ∀ l ∈ textwrap_wrap text LINE_LEN "# ",
      (∃ g, g ≠ [] ∧ g <:+: pyWords text ∧
        l = "# " ++ String.intercalate " " g)
      ∧ (l.length ≤ LINE_LEN ∨ ∃ w ∈ pyWords text, l = "# " ++ w) := by
    intro l hl
    rw [textwrap_wrap] at hl
    rcases hpw : pyWords text with _ | ⟨w, ws⟩
    · rw [hpw] at hl
      simp at hl
    · rw [hpw] at hl
      constructor
      · have hl2 : l ∈ textwrap_fill_go LINE_LEN "# "
            ("# " ++ String.intercalate " " [w]) ws := hl
        obtain ⟨g2, hne, hinf, heq⟩ :=
          fillGo_infix LINE_LEN "# " ws [w] (by simp) l hl2
        rw [List.singleton_append] at hinf
        exact ⟨g2, hne, hpw ▸ hinf, heq⟩
      · have hcur : ("# " ++ w).length ≤ LINE_LEN ∨
            ∃ x ∈ w :: ws, "# " ++ w = "# " ++ x :=
          Or.inr ⟨w, List.mem_cons_self _ _, rfl⟩
        exact fillGo_length LINE_LEN "# " (w :: ws) ws ("# " ++ w) hcur
          (fun x hx => List.mem_cons_of_mem _ hx) l hl
  refine ⟨hmain, rfl, ?_⟩
  intro l hl hempty
  obtain ⟨⟨g, _hg, _hinf, heq⟩, _⟩ := hmain l hl
  have hlen := congrArg String.length heq
  rw [hempty, String.length_append] at hlen
  have h2 : ("# " : String).length = 2 := rfl
  have h0 : ("" : String).length = 0 := rfl
  rw [h0, h2] at hlen
  omega

/-- An 80-character word that cannot fit in the comment budget. -/
def long_word : String := String.mk (List.replicate 80 (Char.ofNat 97))

/-- C6 is false as stated: with long-word breaking disabled, a single word
longer than the budget yields a comment line longer than 79 characters. -/
theorem c6_counterexample :
    ∃ l, l ∈ comment_lines long_word ∧ LINE_LEN < l.length := by
  refine ⟨"# " ++ long_word, ?_, by decide⟩
  decide

/-- Witness for C6 at a concrete comment text. -/
theorem c6_comment_wrapping_witness :
    comment_lines "two words" =
      textwrap_wrap "two words" LINE_LEN "# " ++ [""]
    ∧ textwrap_wrap "two words" LINE_LEN "# " = ["# two words"] :=
  ⟨(c6_comment_wrapping "two words").2.1, by decide⟩

end UsageDrivers
